import Mathlib

/-!
Verification of `lib/doit/reporter.py`: the result-reporting layer of the
doit task-execution engine.  The module defines four reporter strategies
(`FakeReporter`, `ConsoleReporter`, `ExecutedOnlyReporter`, `JsonReporter`)
plus the per-task `TaskResult` record backing the JSON reporter.

Embedding choices:
* A `Task` carries its `name`, the string returned by `title()`, and its
  list of actions; an `Action` carries the captured `out`/`err` streams as
  `Option String` (Python `None` ↦ `none`).  Python truthiness in
  `[a.out for a in task.actions if a.out]` filters both `None` and `""`.
* Wall-clock values returned by `time.time()` are threaded explicitly as
  rational timestamps: a JSON-reporter run processes a list of
  (timestamp, lifecycle-call) pairs, the timestamp being the value
  `time.time()` would return during that call.
* `str(datetime.datetime.utcfromtimestamp(x))` is a fixed injective
  rendering of the float `x`; the `started` field therefore carries the
  timestamp itself rather than its decimal rendering.
* Operations that can raise (`dict[key]` lookups, `None - float`) return
  `Option`, with `none` modelling the raised exception.
* Python-2 `dict` state of `JsonReporter` is modelled as an association
  list with dict-assignment semantics (replace the entry in place if the
  key is present, else append); serialization order is the stable
  iteration order of that list.
-/

namespace Doit

/-- An executed action of a task: captured stdout and stderr
(`a.out`, `a.err`), `none` for Python `None`. -/
structure Action where
  out : Option String
  err : Option String
deriving Repr, DecidableEq

/-- A task as consumed by the reporters: `task.name`, the result of
`task.title()`, and `task.actions`. -/
structure Task where
  name : String
  title : String
  actions : List Action
deriving Repr, DecidableEq

/-- Failure info as consumed by the reporters: `get_name()` and
`get_msg()`. -/
structure Exn where
  name : String
  msg : String
deriving Repr, DecidableEq

/-- Python truthiness filter on a captured stream: `if a.out` keeps
non-`None`, non-empty strings. -/
def truthy (o : Option String) : Option String :=
  o.bind (fun s => if s = "" then none else some s)

/-- `"".join([a.out for a in task.actions if a.out])`. -/
def outJoin (t : Task) : String :=
  String.join (t.actions.filterMap (fun a => truthy a.out))

/-- `"".join([a.err for a in task.actions if a.err])`. -/
def errJoin (t : Task) : String :=
  String.join (t.actions.filterMap (fun a => truthy a.err))

/-- One lifecycle call the scheduler makes on a reporter. -/
inductive Call where
  | start_task (t : Task)
  | execute_task (t : Task)
  | add_failure (t : Task) (e : Exn)
  | add_success (t : Task)
  | skip_uptodate (t : Task)
  | cleanup_error (e : Exn)
  | complete_run
deriving Repr, DecidableEq

/-! ## FakeReporter -/

/-- One entry of `FakeReporter.log`: Python appends `('start', task)`,
…, and the 1-tuple `('cleanup_error',)` — an event kind paired with a
task or nothing. -/
abbrev FakeEvent := String × Option Task

/-- The effect of one lifecycle call on `FakeReporter.log`. -/
def FakeReporter.step (log : List FakeEvent) : Call → List FakeEvent
  | .start_task t => log ++ [("start", some t)]
  | .execute_task t => log ++ [("execute", some t)]
  | .add_failure t _ => log ++ [("fail", some t)]
  | .add_success t => log ++ [("success", some t)]
  | .skip_uptodate t => log ++ [("skip", some t)]
  | .cleanup_error _ => log ++ [("cleanup_error", none)]
  | .complete_run => log

/-- Processing a whole call sequence on a `FakeReporter`. -/
def FakeReporter.run (log : List FakeEvent) : List Call → List FakeEvent
  | [] => log
  | c :: cs => FakeReporter.run (FakeReporter.step log c) cs

/-- Spec-side vocabulary (refinement reference): the event each lifecycle
call is documented to record, `none` for `complete_run` which records
nothing. -/
def specEventOf : Call → Option FakeEvent
  | .start_task t => some ("start", some t)
  | .execute_task t => some ("execute", some t)
  | .add_failure t _ => some ("fail", some t)
  | .add_success t => some ("success", some t)
  | .skip_uptodate t => some ("skip", some t)
  | .cleanup_error _ => some ("cleanup_error", none)
  | .complete_run => none

/-! ## ConsoleReporter and ExecutedOnlyReporter -/

/-- One write a console reporter performs: `print` goes to stdout (the
emitted string includes the trailing newline `print` adds),
`sys.stderr.write` goes to stderr. -/
inductive Write where
  | stdout (s : String)
  | stderr (s : String)
deriving Repr, DecidableEq

/-- Mutable state of a `ConsoleReporter`: the buffered failures (task
paired with its exception, in append order) and the two construction
flags. -/
structure ConsoleState where
  failures : List (Task × Exn)
  show_out : Bool
  show_err : Bool
deriving Repr, DecidableEq

/-- `"#"*40` -/
def sepLine : String := String.mk (List.replicate 40 '#')

/-- The stderr writes `complete_run` performs for one buffered failure. -/
def failureDigest (show_out show_err : Bool) (p : Task × Exn) : List Write :=
  [Write.stderr (sepLine ++ "\n"),
   Write.stderr (p.2.name ++ ": " ++ p.1.name ++ "\n"),
   Write.stderr p.2.msg,
   Write.stderr "\n"]
  ++ (if show_out then [Write.stderr (outJoin p.1 ++ "\n")] else [])
  ++ (if show_err then [Write.stderr (errJoin p.1 ++ "\n")] else [])

/-- The effect of one lifecycle call on a `ConsoleReporter`: the new
state and the writes performed, in order. -/
def ConsoleReporter.step (s : ConsoleState) : Call → ConsoleState × List Write
  | .start_task _ => (s, [])
  | .execute_task t => (s, [Write.stdout (t.title ++ "\n")])
  | .add_failure t e => ({ s with failures := s.failures ++ [(t, e)] }, [])
  | .add_success _ => (s, [])
  | .skip_uptodate t => (s, [Write.stdout ("--- " ++ t.title ++ "\n")])
  | .cleanup_error e => (s, [Write.stderr e.msg])
  | .complete_run =>
      (s, (s.failures.map (failureDigest s.show_out s.show_err)).flatten)

/-- Processing a whole call sequence on a `ConsoleReporter`, collecting
all writes in order. -/
def ConsoleReporter.run (s : ConsoleState) : List Call → ConsoleState × List Write
  | [] => (s, [])
  | c :: cs =>
      let p := ConsoleReporter.step s c
      let q := ConsoleReporter.run p.1 cs
      (q.1, p.2 ++ q.2)

/-- `ExecutedOnlyReporter` overrides `skip_uptodate` (silent) and
`execute_task` (title only when `task.actions` is non-empty); every other
method is inherited from `ConsoleReporter`. -/
def ExecutedOnlyReporter.step (s : ConsoleState) : Call → ConsoleState × List Write
  | .skip_uptodate _ => (s, [])
  | .execute_task t =>
      (s, if t.actions.isEmpty then [] else [Write.stdout (t.title ++ "\n")])
  | c => ConsoleReporter.step s c

/-! ## TaskResult and JsonReporter -/

/-- The per-task record of `JsonReporter`; fields mirror `TaskResult`'s
attributes (`started_on`/`finished_on` embed `_started_on`/`_finished_on`;
`started` holds the timestamp whose fixed rendering
`str(datetime.datetime.utcfromtimestamp(...))` the Python field holds). -/
structure TaskResult where
  name : String
  result : Option String
  log : Option String
  started : Option ℚ
  elapsed : Option ℚ
  started_on : Option ℚ
  finished_on : Option ℚ
deriving Repr, DecidableEq

/-- `TaskResult.__init__(name)`. -/
def TaskResult.init (name : String) : TaskResult :=
  ⟨name, none, none, none, none, none, none⟩

/-- `TaskResult.execute()` at wall-clock time `now`. -/
def TaskResult.execute (r : TaskResult) (now : ℚ) : TaskResult :=
  { r with started_on := some now }

/-- `TaskResult.set_result(task, result)` at wall-clock time `now`. -/
def TaskResult.set_result (r : TaskResult) (task : Task) (result : String)
    (now : ℚ) : TaskResult :=
  { r with
    finished_on := some now
    result := some result
    log := some ("--err--\n" ++ errJoin task ++ "--out--\n" ++ outJoin task) }

/-- The dictionary `TaskResult.to_dict` returns (one element of the
serialized JSON array). -/
structure ResultDict where
  name : String
  result : Option String
  log : Option String
  started : Option ℚ
  elapsed : Option ℚ
deriving Repr, DecidableEq

/-- `TaskResult.to_dict()`: mutates `started`/`elapsed` when the task was
executed, then returns the dictionary.  When `_started_on` is set but
`_finished_on` is not, `self._finished_on - self._started_on` is
`None - float` and raises `TypeError`: modelled as `none`. -/
def TaskResult.to_dict (r : TaskResult) : Option (TaskResult × ResultDict) :=
  match r.started_on with
  | none => some (r, ⟨r.name, r.result, r.log, r.started, r.elapsed⟩)
  | some s0 =>
      match r.finished_on with
      | none => none
      | some f0 =>
          let r' := { r with started := some s0, elapsed := some (f0 - s0) }
          some (r', ⟨r'.name, r'.result, r'.log, r'.started, r'.elapsed⟩)

/-- Python-dict assignment `d[k] = v`: replace in place if present, else
append. -/
def dictSet : List (String × TaskResult) → String → TaskResult →
    List (String × TaskResult)
  | [], k, v => [(k, v)]
  | p :: rest, k, v =>
      if p.1 = k then (k, v) :: rest else p :: dictSet rest k v

/-- Python-dict lookup `d[k]`, `none` on `KeyError`. -/
def dictGet : List (String × TaskResult) → String → Option TaskResult
  | [], _ => none
  | p :: rest, k => if p.1 = k then some p.2 else dictGet rest k

/-- State of a `JsonReporter`: `self.t_results`. -/
structure JsonState where
  t_results : List (String × TaskResult)
deriving Repr, DecidableEq

/-- `JsonReporter.__init__`: the `show_out`/`show_err` parameters are
ignored, the mapping starts empty. -/
def JsonState.init : JsonState := ⟨[]⟩

/-- The effect of one lifecycle call on a `JsonReporter` at wall-clock
time `now`; `none` models a raised `KeyError` from the unguarded
`self.t_results[task.name]` lookups.  `complete_run` does not change the
mapping (its output is `JsonReporter.complete_run` below). -/
def JsonReporter.step (s : JsonState) (now : ℚ) : Call → Option JsonState
  | .start_task t =>
      some ⟨dictSet s.t_results t.name (TaskResult.init t.name)⟩
  | .execute_task t =>
      (dictGet s.t_results t.name).map
        (fun r => ⟨dictSet s.t_results t.name (r.execute now)⟩)
  | .add_failure t _ =>
      (dictGet s.t_results t.name).map
        (fun r => ⟨dictSet s.t_results t.name (r.set_result t "fail" now)⟩)
  | .add_success t =>
      (dictGet s.t_results t.name).map
        (fun r => ⟨dictSet s.t_results t.name (r.set_result t "success" now)⟩)
  | .skip_uptodate t =>
      (dictGet s.t_results t.name).map
        (fun r => ⟨dictSet s.t_results t.name (r.set_result t "up-to-date" now)⟩)
  | .cleanup_error _ => some s
  | .complete_run => some s

/-- Processing a list of (timestamp, call) pairs on a `JsonReporter`;
`none` once any step raises. -/
def JsonReporter.run (s : JsonState) : List (ℚ × Call) → Option JsonState
  | [] => some s
  | (now, c) :: cs =>
      match JsonReporter.step s now c with
      | none => none
      | some s' => JsonReporter.run s' cs

/-- `[tr.to_dict() for tr in self.t_results.itervalues()]`: each record
is mutated by its `to_dict` call; `none` once any `to_dict` raises. -/
def toDictAll : List (String × TaskResult) →
    Option (List (String × TaskResult) × List ResultDict)
  | [] => some ([], [])
  | (k, r) :: rest =>
      match r.to_dict, toDictAll rest with
      | some (r', d), some (rest', ds) => some ((k, r') :: rest', d :: ds)
      | _, _ => none

/-- `JsonReporter.complete_run()`: the updated mapping and the array of
dictionaries handed to `json.dump` (whose byte output is a function of
this array), `none` if serialization raises. -/
def JsonReporter.complete_run (s : JsonState) :
    Option (JsonState × List ResultDict) :=
  (toDictAll s.t_results).map (fun p => (⟨p.1⟩, p.2))

/-- Names passed to `start_task` in a timed call sequence. -/
def startNames : List (ℚ × Call) → List String
  | [] => []
  | (_, Call.start_task t) :: cs => t.name :: startNames cs
  | _ :: cs => startNames cs

/-! ## Concrete scenario data (spec §8 end-to-end run) -/

/-- T1's single action: prints `hello` to stdout. -/
def act_hello : Action := ⟨some "hello", none⟩

/-- T2's single action: prints `boom` to stderr. -/
def act_boom : Action := ⟨none, some "boom"⟩

/-- Scenario task T1 (succeeds). -/
def task_T1 : Task := ⟨"T1", "T1", [act_hello]⟩

/-- Scenario task T2 (fails). -/
def task_T2 : Task := ⟨"T2", "T2", [act_boom]⟩

/-- Scenario failure info for T2. -/
def exn_cmd : Exn := ⟨"CommandError", "exit code 1"⟩

/-- The scenario call sequence: T1 runs and succeeds, T2 runs and fails,
then the run completes. -/
def scenario_calls : List Call :=
  [Call.start_task task_T1, Call.execute_task task_T1,
   Call.add_success task_T1,
   Call.start_task task_T2, Call.execute_task task_T2,
   Call.add_failure task_T2 exn_cmd,
   Call.complete_run]

/-! ## Association-list (Python dict) lemmas -/

theorem dictGet_dictSet_self (m : List (String × TaskResult)) (k : String)
    (v : TaskResult) : dictGet (dictSet m k v) k = some v := by
  induction m with
  | nil => simp [dictSet, dictGet]
  | cons p rest ih =>
      by_cases h : p.1 = k
      · simp [dictSet, dictGet, h]
      · simp [dictSet, dictGet, h, ih]

theorem dictGet_dictSet_ne (m : List (String × TaskResult)) (k k' : String)
    (v : TaskResult) (h : k' ≠ k) :
    dictGet (dictSet m k v) k' = dictGet m k' := by
  have h' : ¬ k = k' := fun hk => h hk.symm
  induction m with
  | nil => simp [dictSet, dictGet, h']
  | cons p rest ih =>
      by_cases hp : p.1 = k
      · subst hp
        simp [dictSet, dictGet, h']
      · by_cases hq : p.1 = k'
        · simp [dictSet, dictGet, hp, hq, h]
        · simp [dictSet, dictGet, hp, hq, ih]

theorem dictGet_mem (m : List (String × TaskResult)) (k : String)
    (r : TaskResult) (h : dictGet m k = some r) : (k, r) ∈ m := by
  induction m with
  | nil => simp [dictGet] at h
  | cons p rest ih =>
      by_cases hp : p.1 = k
      · cases p with
        | mk a b =>
            simp only at hp
            subst hp
            simp [dictGet] at h
            subst h
            exact List.mem_cons_self _ _
      · simp [dictGet, hp] at h
        exact List.mem_cons_of_mem _ (ih h)

theorem keys_dictSet (m : List (String × TaskResult)) (k : String)
    (v : TaskResult) :
    (dictSet m k v).map Prod.fst =
      if k ∈ m.map Prod.fst then m.map Prod.fst
      else m.map Prod.fst ++ [k] := by
  induction m with
  | nil => simp [dictSet]
  | cons p rest ih =>
      by_cases h : p.1 = k
      · simp [dictSet, h]
      · have h' : ¬ k = p.1 := fun hk => h hk.symm
        simp only [dictSet, h, if_false, List.map_cons, ih, List.mem_cons, h',
          false_or]
        split <;> simp

theorem nodup_keys_dictSet (m : List (String × TaskResult)) (k : String)
    (v : TaskResult) (h : (m.map Prod.fst).Nodup) :
    ((dictSet m k v).map Prod.fst).Nodup := by
  rw [keys_dictSet]
  split
  · exact h
  · rename_i hk
    simp [List.nodup_append, h, hk]

/-! ## Claim theorems: FakeReporter, ConsoleReporter, ExecutedOnlyReporter -/

/-- Claim C2: for every sequence of lifecycle calls, the `FakeReporter`
log equals the call sequence verbatim, in order, each call contributing
its (event-kind, task-or-none) tuple from the fixed vocabulary, with
`complete_run` contributing nothing. -/
theorem fake_reporter_log_verbatim (cs : List Call) :
    FakeReporter.run [] cs = cs.filterMap specEventOf := by
  have key : ∀ (cs : List Call) (log : List FakeEvent),
      FakeReporter.run log cs = log ++ cs.filterMap specEventOf := by
    intro cs
    induction cs with
    | nil => intro log; simp [FakeReporter.run]
    | cons c cs ih =>
        intro log
        cases c <;> simp [FakeReporter.run, FakeReporter.step, specEventOf, ih]
  simpa using key cs []

/-- Claim C4: for the `ExecutedOnlyReporter`, `skip_uptodate` writes
nothing; `execute_task` writes nothing when the task's action list is
empty, and writes the task's title exactly once when it is non-empty. -/
theorem executed_only_output (s : ConsoleState) (t : Task) :
    (ExecutedOnlyReporter.step s (Call.skip_uptodate t)).2 = [] ∧
    (t.actions = [] → (ExecutedOnlyReporter.step s (Call.execute_task t)).2 = []) ∧
    (t.actions ≠ [] →
      (ExecutedOnlyReporter.step s (Call.execute_task t)).2 =
        [Write.stdout (t.title ++ "\n")]) := by
  refine ⟨rfl, ?_, ?_⟩ <;> intro h <;>
    simp [ExecutedOnlyReporter.step, List.isEmpty_iff, h]

/-- Witness for C4: a task with one action gets its title written exactly
once. -/
theorem executed_only_output_witness :
    (ExecutedOnlyReporter.step ⟨[], true, true⟩ (Call.execute_task task_T1)).2 =
      [Write.stdout "T1\n"] :=
  (executed_only_output ⟨[], true, true⟩ task_T1).2.2 (by decide)

/-- Claim C7: `complete_run` on a run with zero tasks raises nothing:
both console strategies write no failure digest, the `JsonReporter`
serializes the empty array, and the `FakeReporter` log stays empty. -/
theorem complete_run_empty_run (so se : Bool) :
    (ConsoleReporter.step ⟨[], so, se⟩ Call.complete_run).2 = [] ∧
    (ExecutedOnlyReporter.step ⟨[], so, se⟩ Call.complete_run).2 = [] ∧
    JsonReporter.complete_run JsonState.init = some (JsonState.init, []) ∧
    FakeReporter.step [] Call.complete_run = [] :=
  ⟨rfl, rfl, rfl, rfl⟩

/-- Claim C3: the `ConsoleReporter` failure digest.  First conjunct: the
end-to-end scenario — T1 succeeds printing `hello`, T2 fails with
`CommandError`/`exit code 1`/stderr `boom`, flags `(true, true)` — writes
exactly the two progress lines during execution and, at completion, the
separator, `CommandError: T2`, `exit code 1` and `boom` for T2 only.
Second conjunct: with two buffered failures the digest emits the blocks
in the order the failures were added. -/
theorem console_failure_digest :
    (ConsoleReporter.run ⟨[], true, true⟩ scenario_calls).2 =
      [Write.stdout "T1\n",
       Write.stdout "T2\n",
       Write.stderr "########################################\n",
       Write.stderr "CommandError: T2\n",
       Write.stderr "exit code 1",
       Write.stderr "\n",
       Write.stderr "\n",
       Write.stderr "boom\n"] ∧
    (ConsoleReporter.step ⟨[(task_T2, exn_cmd), (task_T1, exn_cmd)], false, false⟩
        Call.complete_run).2 =
      [Write.stderr (sepLine ++ "\n"),
       Write.stderr "CommandError: T2\n",
       Write.stderr "exit code 1",
       Write.stderr "\n",
       Write.stderr (sepLine ++ "\n"),
       Write.stderr "CommandError: T1\n",
       Write.stderr "exit code 1",
       Write.stderr "\n"] := by
  constructor <;> rfl

/-! ## JsonReporter helper lemmas -/

theorem step_nodup_keys (s : JsonState) (now : ℚ) (c : Call) (s' : JsonState)
    (hstep : JsonReporter.step s now c = some s')
    (h : (s.t_results.map Prod.fst).Nodup) :
    (s'.t_results.map Prod.fst).Nodup := by
  cases c <;> simp [JsonReporter.step, Option.map_eq_some'] at hstep
  case start_task t =>
    subst hstep
    exact nodup_keys_dictSet _ _ _ h
  case execute_task t =>
    obtain ⟨r, -, hs'⟩ := hstep
    subst hs'
    exact nodup_keys_dictSet _ _ _ h
  case add_failure t e =>
    obtain ⟨r, -, hs'⟩ := hstep
    subst hs'
    exact nodup_keys_dictSet _ _ _ h
  case add_success t =>
    obtain ⟨r, -, hs'⟩ := hstep
    subst hs'
    exact nodup_keys_dictSet _ _ _ h
  case skip_uptodate t =>
    obtain ⟨r, -, hs'⟩ := hstep
    subst hs'
    exact nodup_keys_dictSet _ _ _ h
  case cleanup_error e =>
    subst hstep; exact h
  case complete_run =>
    subst hstep; exact h

theorem run_nodup_keys (cs : List (ℚ × Call)) (s s' : JsonState)
    (hrun : JsonReporter.run s cs = some s')
    (h : (s.t_results.map Prod.fst).Nodup) :
    (s'.t_results.map Prod.fst).Nodup := by
  induction cs generalizing s with
  | nil =>
      simp [JsonReporter.run] at hrun
      subst hrun; exact h
  | cons p cs ih =>
      cases p with
      | mk now c =>
          cases hstep : JsonReporter.step s now c with
          | none => simp [JsonReporter.run, hstep] at hrun
          | some s₁ =>
              simp only [JsonReporter.run, hstep] at hrun
              exact ih s₁ hrun (step_nodup_keys s now c s₁ hstep h)

theorem step_dictGet_none (s : JsonState) (now : ℚ) (c : Call) (s' : JsonState)
    (n : String) (hstep : JsonReporter.step s now c = some s')
    (h0 : dictGet s.t_results n = none)
    (hc : ∀ t : Task, c = Call.start_task t → t.name ≠ n) :
    dictGet s'.t_results n = none := by
  cases c <;> simp [JsonReporter.step, Option.map_eq_some'] at hstep
  case start_task t =>
    subst hstep
    rw [dictGet_dictSet_ne _ _ _ _ (fun hn => hc t rfl hn.symm)]
    exact h0
  case execute_task t =>
    obtain ⟨r, hget, hs'⟩ := hstep
    subst hs'
    have hne : n ≠ t.name := by
      intro hn; subst hn; rw [h0] at hget; exact Option.noConfusion hget
    rw [dictGet_dictSet_ne _ _ _ _ hne]; exact h0
  case add_failure t e =>
    obtain ⟨r, hget, hs'⟩ := hstep
    subst hs'
    have hne : n ≠ t.name := by
      intro hn; subst hn; rw [h0] at hget; exact Option.noConfusion hget
    rw [dictGet_dictSet_ne _ _ _ _ hne]; exact h0
  case add_success t =>
    obtain ⟨r, hget, hs'⟩ := hstep
    subst hs'
    have hne : n ≠ t.name := by
      intro hn; subst hn; rw [h0] at hget; exact Option.noConfusion hget
    rw [dictGet_dictSet_ne _ _ _ _ hne]; exact h0
  case skip_uptodate t =>
    obtain ⟨r, hget, hs'⟩ := hstep
    subst hs'
    have hne : n ≠ t.name := by
      intro hn; subst hn; rw [h0] at hget; exact Option.noConfusion hget
    rw [dictGet_dictSet_ne _ _ _ _ hne]; exact h0
  case cleanup_error e =>
    subst hstep; exact h0
  case complete_run =>
    subst hstep; exact h0

theorem run_dictGet_none (cs : List (ℚ × Call)) (s s' : JsonState) (n : String)
    (h0 : dictGet s.t_results n = none) (hn : n ∉ startNames cs)
    (hrun : JsonReporter.run s cs = some s') :
    dictGet s'.t_results n = none := by
  induction cs generalizing s with
  | nil =>
      simp [JsonReporter.run] at hrun
      subst hrun; exact h0
  | cons p cs ih =>
      cases p with
      | mk now c =>
          cases hstep : JsonReporter.step s now c with
          | none => simp [JsonReporter.run, hstep] at hrun
          | some s₁ =>
              simp only [JsonReporter.run, hstep] at hrun
              have hc : ∀ t : Task, c = Call.start_task t → t.name ≠ n := by
                intro t hct htn
                subst hct
                exact hn (by simp [startNames, htn])
              have hn' : n ∉ startNames cs := by
                intro hmem
                apply hn
                cases c <;> simp [startNames, hmem]
              exact ih s₁ (step_dictGet_none s now c s₁ n hstep h0 hc) hn' hrun

theorem run_cons (s : JsonState) (now : ℚ) (c : Call) (cs : List (ℚ × Call))
    (s' : JsonState) (h : JsonReporter.step s now c = some s') :
    JsonReporter.run s ((now, c) :: cs) = JsonReporter.run s' cs := by
  simp [JsonReporter.run, h]

theorem json_run_terminal (s : JsonState) (t : Task) (t0 t1 t2 : ℚ)
    (term : Call) (res : String)
    (hstep : ∀ s₁ : JsonState, JsonReporter.step s₁ t2 term =
      (dictGet s₁.t_results t.name).map
        (fun r => ⟨dictSet s₁.t_results t.name (r.set_result t res t2)⟩)) :
    JsonReporter.run s
        [(t0, Call.start_task t), (t1, Call.execute_task t), (t2, term)] =
      some ⟨dictSet (dictSet (dictSet s.t_results t.name
          (TaskResult.init t.name)) t.name
          ((TaskResult.init t.name).execute t1)) t.name
        (((TaskResult.init t.name).execute t1).set_result t res t2)⟩ := by
  have e1 : JsonReporter.step s t0 (Call.start_task t) =
      some ⟨dictSet s.t_results t.name (TaskResult.init t.name)⟩ := rfl
  have e2 : JsonReporter.step
      ⟨dictSet s.t_results t.name (TaskResult.init t.name)⟩ t1
      (Call.execute_task t) =
      some ⟨dictSet (dictSet s.t_results t.name (TaskResult.init t.name))
        t.name ((TaskResult.init t.name).execute t1)⟩ := by
    simp [JsonReporter.step, dictGet_dictSet_self]
  have e3 : JsonReporter.step
      ⟨dictSet (dictSet s.t_results t.name (TaskResult.init t.name)) t.name
        ((TaskResult.init t.name).execute t1)⟩ t2 term =
      some ⟨dictSet (dictSet (dictSet s.t_results t.name
          (TaskResult.init t.name)) t.name
          ((TaskResult.init t.name).execute t1)) t.name
        (((TaskResult.init t.name).execute t1).set_result t res t2)⟩ := by
    rw [hstep]
    simp [dictGet_dictSet_self]
  rw [run_cons _ _ _ _ _ e1, run_cons _ _ _ _ _ e2, run_cons _ _ _ _ _ e3]
  rfl

theorem to_dict_idem (r r' : TaskResult) (d : ResultDict)
    (h : r.to_dict = some (r', d)) : r'.to_dict = some (r', d) := by
  cases hs : r.started_on with
  | none =>
      rw [TaskResult.to_dict, hs] at h
      simp only [Option.some.injEq, Prod.mk.injEq] at h
      obtain ⟨h1, h2⟩ := h
      subst h1
      rw [TaskResult.to_dict, hs]
      simp [h2]
  | some s0 =>
      cases hf : r.finished_on with
      | none => rw [TaskResult.to_dict, hs, hf] at h; exact Option.noConfusion h
      | some f0 =>
          rw [TaskResult.to_dict, hs, hf] at h
          simp only [Option.some.injEq, Prod.mk.injEq] at h
          obtain ⟨h1, h2⟩ := h
          subst h1
          rw [TaskResult.to_dict]
          simp [hs, hf, h2.symm]

theorem toDictAll_idem (m m' : List (String × TaskResult))
    (ds : List ResultDict) (h : toDictAll m = some (m', ds)) :
    toDictAll m' = some (m', ds) := by
  induction m generalizing m' ds with
  | nil =>
      simp [toDictAll] at h
      obtain ⟨h1, h2⟩ := h
      subst h1; subst h2
      rfl
  | cons p rest ih =>
      cases p with
      | mk k r =>
          cases hd : r.to_dict with
          | none => simp [toDictAll, hd] at h
          | some q =>
              cases q with
              | mk r2 d =>
                  cases hrest : toDictAll rest with
                  | none => simp [toDictAll, hd, hrest] at h
                  | some prest =>
                      cases prest with
                      | mk rest' ds' =>
                          simp only [toDictAll, hd, hrest, Option.some.injEq,
                            Prod.mk.injEq] at h
                          obtain ⟨h1, h2⟩ := h
                          subst h1; subst h2
                          have hidem := to_dict_idem r r2 d hd
                          have hrec := ih rest' ds' hrest
                          simp [toDictAll, hidem, hrec]

theorem toDictAll_none_of_mem (m : List (String × TaskResult)) (k : String)
    (r : TaskResult) (hmem : (k, r) ∈ m) (hs : r.started_on.isSome)
    (hf : r.finished_on = none) : toDictAll m = none := by
  induction m with
  | nil => simp at hmem
  | cons p rest ih =>
      rcases List.mem_cons.mp hmem with hp | hp
      · subst hp
        obtain ⟨s0, hs0⟩ := Option.isSome_iff_exists.mp hs
        rw [toDictAll, TaskResult.to_dict, hs0, hf]
      · cases p with
        | mk k' r' =>
            rw [toDictAll, ih hp]
            cases hd : r'.to_dict <;> rfl

/-! ## Claim theorems: JsonReporter -/

/-- Claim C1: for a task taken through `start_task`, `execute_task` at
time `t1`, then exactly one terminal event at time `t2 ≥ t1`, the
serialized record has non-null `started`, non-null `elapsed ≥ 0`,
`result` equal to the string matching the terminal event kind, and `log`
equal to the fixed template: stderr header, joined captured stderr,
stdout header, joined captured stdout. -/
theorem json_full_lifecycle (s : JsonState) (t : Task) (e : Exn)
    (t0 t1 t2 : ℚ) (term : Call) (res : String) (hle : t1 ≤ t2)
    (hterm : (term, res) ∈ [(Call.add_failure t e, "fail"),
                            (Call.add_success t, "success"),
                            (Call.skip_uptodate t, "up-to-date")]) :
    ∃ (s' : JsonState) (r r2 : TaskResult) (d : ResultDict),
      JsonReporter.run s
          [(t0, Call.start_task t), (t1, Call.execute_task t), (t2, term)] =
        some s' ∧
      dictGet s'.t_results t.name = some r ∧
      r.to_dict = some (r2, d) ∧
      d.started = some t1 ∧
      d.elapsed = some (t2 - t1) ∧ 0 ≤ t2 - t1 ∧
      d.result = some res ∧
      d.log = some ("--err--\n" ++ errJoin t ++ "--out--\n" ++ outJoin t) := by
  have hsub : 0 ≤ t2 - t1 := sub_nonneg.mpr hle
  simp only [List.mem_cons, List.mem_singleton, Prod.mk.injEq,
    List.not_mem_nil, or_false] at hterm
  rcases hterm with ⟨ht, hr⟩ | ⟨ht, hr⟩ | ⟨ht, hr⟩ <;> subst ht <;> subst hr
  · exact ⟨_, ((TaskResult.init t.name).execute t1).set_result t "fail" t2,
      _, _, json_run_terminal s t t0 t1 t2 _ "fail" (fun _ => rfl),
      dictGet_dictSet_self _ _ _, rfl, rfl, rfl, hsub, rfl, rfl⟩
  · exact ⟨_, ((TaskResult.init t.name).execute t1).set_result t "success" t2,
      _, _, json_run_terminal s t t0 t1 t2 _ "success" (fun _ => rfl),
      dictGet_dictSet_self _ _ _, rfl, rfl, rfl, hsub, rfl, rfl⟩
  · exact ⟨_, ((TaskResult.init t.name).execute t1).set_result t "up-to-date" t2,
      _, _, json_run_terminal s t t0 t1 t2 _ "up-to-date" (fun _ => rfl),
      dictGet_dictSet_self _ _ _, rfl, rfl, rfl, hsub, rfl, rfl⟩

/-- Witness for C1: the success case at concrete times 1 and 2. -/
theorem json_full_lifecycle_witness :
    ∃ (s' : JsonState) (r r2 : TaskResult) (d : ResultDict),
      JsonReporter.run JsonState.init
          [(0, Call.start_task task_T1), (1, Call.execute_task task_T1),
           (2, Call.add_success task_T1)] =
        some s' ∧
      dictGet s'.t_results task_T1.name = some r ∧
      r.to_dict = some (r2, d) ∧
      d.started = some 1 ∧
      d.elapsed = some (2 - 1) ∧ (0 : ℚ) ≤ 2 - 1 ∧
      d.result = some "success" ∧
      d.log = some ("--err--\n" ++ errJoin task_T1 ++ "--out--\n" ++
        outJoin task_T1) :=
  json_full_lifecycle JsonState.init task_T1 exn_cmd 0 1 2
    (Call.add_success task_T1) "success" (by norm_num) (by simp)

/-- Claim C6: `start_task` followed directly by `skip_uptodate` with no
`execute_task` leaves `started` and `elapsed` null in the serialized
record while `result` is `up-to-date`. -/
theorem json_skip_without_execute (s : JsonState) (t : Task) (t0 t1 : ℚ) :
    ∃ (s' : JsonState) (r r2 : TaskResult) (d : ResultDict),
      JsonReporter.run s [(t0, Call.start_task t), (t1, Call.skip_uptodate t)] =
        some s' ∧
      dictGet s'.t_results t.name = some r ∧
      r.to_dict = some (r2, d) ∧
      d.started = none ∧
      d.elapsed = none ∧
      d.result = some "up-to-date" :=
  ⟨⟨dictSet (dictSet s.t_results t.name (TaskResult.init t.name)) t.name
      ((TaskResult.init t.name).set_result t "up-to-date" t1)⟩,
    (TaskResult.init t.name).set_result t "up-to-date" t1, _, _,
    by simp [JsonReporter.run, JsonReporter.step, dictGet_dictSet_self],
    dictGet_dictSet_self _ _ _, rfl, rfl, rfl, rfl⟩

/-- Claim C5: after any successful run from the initial state the
mapping holds at most one record per task name (its key list has no
duplicates), and `start_task` always installs a fresh record under the
task's name, replacing any prior one. -/
theorem json_record_per_name_unique (cs : List (ℚ × Call)) (s : JsonState)
    (hrun : JsonReporter.run JsonState.init cs = some s) :
    (s.t_results.map Prod.fst).Nodup ∧
    ∀ (s₀ : JsonState) (t : Task) (now : ℚ),
      ∃ s₁, JsonReporter.step s₀ now (Call.start_task t) = some s₁ ∧
        dictGet s₁.t_results t.name = some (TaskResult.init t.name) := by
  refine ⟨run_nodup_keys cs JsonState.init s hrun (by simp [JsonState.init]), ?_⟩
  intro s₀ t now
  exact ⟨_, rfl, dictGet_dictSet_self _ _ _⟩

/-- Witness for C5: a run with two `start_task` calls for the same name
still has duplicate-free keys. -/
theorem json_record_per_name_unique_witness :
    ((JsonState.mk [("T1", TaskResult.init "T1")]).t_results.map
      Prod.fst).Nodup :=
  (json_record_per_name_unique
    [(0, Call.start_task task_T1), (1, Call.start_task task_T1)] _ rfl).1

/-- Claim C9: on any state reached from the initial state by a call
sequence containing no `start_task` for the task's name, each of
`execute_task`, `add_failure`, `add_success` and `skip_uptodate` raises
a lookup error (`KeyError`, modelled as `none`): a prior `start_task`
is a precondition of every other per-task operation. -/
theorem json_ops_require_start (cs : List (ℚ × Call)) (s : JsonState)
    (t : Task) (e : Exn) (now : ℚ) (hn : t.name ∉ startNames cs)
    (hrun : JsonReporter.run JsonState.init cs = some s) :
    JsonReporter.step s now (Call.execute_task t) = none ∧
    JsonReporter.step s now (Call.add_failure t e) = none ∧
    JsonReporter.step s now (Call.add_success t) = none ∧
    JsonReporter.step s now (Call.skip_uptodate t) = none := by
  have h := run_dictGet_none cs JsonState.init s t.name rfl hn hrun
  exact ⟨by simp [JsonReporter.step, h], by simp [JsonReporter.step, h],
    by simp [JsonReporter.step, h], by simp [JsonReporter.step, h]⟩

/-- Witness for C9: after starting only T1, `execute_task` on T2 raises. -/
theorem json_ops_require_start_witness :
    JsonReporter.step (JsonState.mk [("T1", TaskResult.init "T1")]) 0
        (Call.execute_task task_T2) =
      none :=
  (json_ops_require_start [(0, Call.start_task task_T1)] _ task_T2 exn_cmd 0
    (by decide) rfl).1

/-- Claim C8: serialization is deterministic/idempotent — if
`complete_run` succeeds once, running it again on the resulting state
yields the same state and the same array; in particular `to_dict` on an
already-finalized record returns the same dictionary again. -/
theorem json_serialization_deterministic (s s' : JsonState)
    (ds : List ResultDict)
    (h : JsonReporter.complete_run s = some (s', ds)) :
    JsonReporter.complete_run s' = some (s', ds) ∧
    ∀ (r r2 : TaskResult) (d : ResultDict),
      TaskResult.to_dict r = some (r2, d) →
        TaskResult.to_dict r2 = some (r2, d) := by
  refine ⟨?_, fun r r2 d hd => to_dict_idem r r2 d hd⟩
  simp only [JsonReporter.complete_run, Option.map_eq_some'] at h
  obtain ⟨⟨m', ds'⟩, hall, heq⟩ := h
  simp only [Prod.mk.injEq, JsonState.mk.injEq] at heq
  obtain ⟨h1, h2⟩ := heq
  have := toDictAll_idem s.t_results m' ds' hall
  simp [JsonReporter.complete_run, ← h1, h2] at this ⊢
  simp [this, h2]

/-- Witness for C8: serializing an already-serialized one-record state
reproduces the same state and array. -/
theorem json_serialization_deterministic_witness :
    JsonReporter.complete_run
        (JsonState.mk [("T1", ⟨"T1", some "success",
          some "--err--\n--out--\nhello", some 1, some (2 - 1), some 1,
          some 2⟩)]) =
      some (JsonState.mk [("T1", ⟨"T1", some "success",
          some "--err--\n--out--\nhello", some 1, some (2 - 1), some 1,
          some 2⟩)],
        [⟨"T1", some "success", some "--err--\n--out--\nhello", some 1,
          some (2 - 1)⟩]) :=
  (json_serialization_deterministic
    (JsonState.mk [("T1", ⟨"T1", some "success",
      some "--err--\n--out--\nhello", none, none, some 1, some 2⟩)])
    _ _ rfl).1

/-- Claim C10: if any record was executed (`_started_on` set) but never
finalized (`_finished_on` absent), `complete_run` raises (`to_dict`
computes `_finished_on - _started_on` with `_finished_on = None`) instead
of producing output; in particular this happens after `start_task` then
`execute_task` with no terminal event. -/
theorem json_unfinished_breaks_serialization (s : JsonState) (k : String)
    (r : TaskResult) (hmem : (k, r) ∈ s.t_results)
    (hs : r.started_on.isSome) (hf : r.finished_on = none) :
    JsonReporter.complete_run s = none ∧
    ∀ (s₀ : JsonState) (t : Task) (t0 t1 : ℚ),
      ∃ s₁, JsonReporter.run s₀
          [(t0, Call.start_task t), (t1, Call.execute_task t)] = some s₁ ∧
        JsonReporter.complete_run s₁ = none := by
  constructor
  · simp [JsonReporter.complete_run, toDictAll_none_of_mem s.t_results k r
      hmem hs hf]
  · intro s₀ t t0 t1
    refine ⟨⟨dictSet (dictSet s₀.t_results t.name (TaskResult.init t.name))
      t.name ((TaskResult.init t.name).execute t1)⟩, ?_, ?_⟩
    · simp [JsonReporter.run, JsonReporter.step, dictGet_dictSet_self]
    · have hmem' : (t.name, (TaskResult.init t.name).execute t1) ∈
          dictSet (dictSet s₀.t_results t.name (TaskResult.init t.name))
            t.name ((TaskResult.init t.name).execute t1) :=
        dictGet_mem _ _ _ (dictGet_dictSet_self _ _ _)
      simp [JsonReporter.complete_run,
        toDictAll_none_of_mem _ _ _ hmem' rfl rfl]

/-- Witness for C10: a one-record state whose record was executed but
never finalized fails to serialize. -/
theorem json_unfinished_breaks_serialization_witness :
    JsonReporter.complete_run
        (JsonState.mk [("T1", ⟨"T1", none, none, none, none, some 1, none⟩)]) =
      none :=
  (json_unfinished_breaks_serialization
    (JsonState.mk [("T1", ⟨"T1", none, none, none, none, some 1, none⟩)])
    "T1" ⟨"T1", none, none, none, none, some 1, none⟩ (by decide) (by decide)
    rfl).1

end Doit
